import Mathlib

/-!
Verification of the source-extraction and conversation-store logic of
`src/main.py` (a Streamlit research-assistant chat application).

Modelling conventions:
* Text is `List Char`.  Python dict records become structures; the Python
  string values of the `role` and `type` fields stay strings (`List Char`).
* Python's `str.lower()` is modelled by mapping `Char.toLower`, which agrees
  with Python on all ASCII text; every keyword the program compares against
  is ASCII.
* `re.findall` over the URL pattern
  `http[s]?://(?:[a-zA-Z]|[0-9]|[$-_@.&+]|[!*\(\),]|(?:%[0-9a-fA-F][0-9a-fA-F]))+`
  is modelled by a left-to-right scanner that, at each position, matches the
  literal scheme `https://` (preferred, as `[s]?` is greedy) or `http://`
  followed by a maximal non-empty run of allowed characters, then resumes
  after the match (findall returns non-overlapping leftmost matches; the
  pattern has no capturing group, so full matches are returned).
  The `%[0-9a-fA-F][0-9a-fA-F]` alternative adds nothing: `%` (0x25) already
  lies in the `$-_` range and hex digits are alphanumeric, so the greedy
  match is exactly the maximal run over the single-character classes.
-/

/-- A source record, as built by `extract_sources` in `src/main.py`
(`{"title": ..., "url": ..., "type": ...}`). -/
structure Source where
  title : List Char
  url : List Char
  type : List Char
deriving DecidableEq

/-- A chat message record (`{"role": ..., "content": ..., "sources": ...}`).
User messages are appended without a `"sources"` key in the Python code; the
renderer reads the key with `.get("sources")`, so a missing key behaves as
the empty list, which is how those messages are modelled here. -/
structure Message where
  role : List Char
  content : List Char
  sources : List Source
deriving DecidableEq

/-- The single-character classes of the URL pattern in `extract_sources`
(line 145 of `src/main.py`): `[a-zA-Z]`, `[0-9]`, `[$-_@.&+]` (a range from
`$` to `_` plus four redundant singletons) and `[!*\(\),]`. -/
def isAllowedChar (c : Char) : Bool :=
  decide ((('a' ≤ c ∧ c ≤ 'z') ∨ ('A' ≤ c ∧ c ≤ 'Z'))
    ∨ ('0' ≤ c ∧ c ≤ '9')
    ∨ (('$' ≤ c ∧ c ≤ '_') ∨ c = '@' ∨ c = '.' ∨ c = '&' ∨ c = '+')
    ∨ (c = '!' ∨ c = '*' ∨ c = '\\' ∨ c = '(' ∨ c = ')' ∨ c = ','))

/-- `beginsWithSeq needle hay` : `hay` starts with `needle`. -/
def beginsWithSeq : List Char → List Char → Bool
  | [], _ => true
  | _ :: _, [] => false
  | a :: as, b :: bs => a == b && beginsWithSeq as bs

/-- Python's substring operator `needle in hay`. -/
def containsSeq (needle : List Char) : List Char → Bool
  | [] => beginsWithSeq needle []
  | c :: cs => beginsWithSeq needle (c :: cs) || containsSeq needle cs

/-- One step of the URL matcher after the literal scheme: a maximal non-empty
run of allowed characters (`(...)+` is greedy).  Returns the full match
(scheme plus run) and the remaining text. -/
def mkMatch (hasS : Bool) (rest : List Char) : Option (List Char × List Char) :=
  let run := rest.takeWhile isAllowedChar
  if run = [] then none
  else some ((if hasS then "https://".data else "http://".data) ++ run,
             rest.dropWhile isAllowedChar)

/-- Try to match the URL pattern at the current position.  `[s]?` is greedy,
so `https://` is preferred; the two scheme cases are disjoint (the fifth
character is `s` in one and `:` in the other), so no backtracking arises. -/
def matchURLAt : List Char → Option (List Char × List Char)
  | 'h' :: 't' :: 't' :: 'p' :: 's' :: ':' :: '/' :: '/' :: rest => mkMatch true rest
  | 'h' :: 't' :: 't' :: 'p' :: ':' :: '/' :: '/' :: rest => mkMatch false rest
  | _ => none

/-- Fuelled scanner for `re.findall`: try the pattern at each position, and
resume after a match.  Each recursive call strictly shrinks the text, so fuel
equal to the text's length (as supplied by `reFindAll`) never runs out. -/
def reFindAllAux : Nat → List Char → List (List Char)
  | 0, _ => []
  | _ + 1, [] => []
  | n + 1, c :: cs =>
    match matchURLAt (c :: cs) with
    | some (url, rest) => url :: reFindAllAux n rest
    | none => reFindAllAux n cs

/-- `re.findall(url_pattern, text)` of `src/main.py` line 146. -/
def reFindAll (text : List Char) : List (List Char) :=
  reFindAllAux text.length text

/-- Python's `str.lower()`, ASCII-wise. -/
def lowerText (text : List Char) : List Char :=
  text.map Char.toLower

/-- Categorisation of one matched URL, `src/main.py` lines 148-157. -/
def classifyURL (url : List Char) : Source :=
  if containsSeq "arxiv.org".data url then
    ⟨"arXiv Academic Paper".data, url, "academic".data⟩
  else if containsSeq "wikipedia.org".data url then
    ⟨"Wikipedia Article".data, url, "encyclopedia".data⟩
  else if containsSeq "doi.org".data url then
    ⟨"Research Paper".data, url, "research".data⟩
  else
    ⟨"Web Source".data, url, "web".data⟩

/-- The synthetic academic entry appended on keyword hits
(`src/main.py` line 162). -/
def arxivRepoSource : Source :=
  ⟨"arXiv Repository".data, "https://arxiv.org".data, "academic".data⟩

/-- The synthetic encyclopedia entry appended on keyword hits
(`src/main.py` line 166). -/
def wikipediaSource : Source :=
  ⟨"Wikipedia".data, "https://wikipedia.org".data, "encyclopedia".data⟩

/-- `extract_sources` of `src/main.py` lines 141-168, step for step: collect
the URL matches, classify each, then the two conditional keyword appends. -/
def extract_sources (response_text : List Char) : List Source :=
  let urls := reFindAll response_text
  let sources := urls.map classifyURL
  let sources1 :=
    if (["arxiv".data, "paper".data, "research".data, "study".data].any
          fun k => containsSeq k (lowerText response_text)) &&
       !(sources.any fun s => s.type == "academic".data) then
      sources ++ [arxivRepoSource]
    else sources
  let sources2 :=
    if (["wikipedia".data, "wiki".data].any
          fun k => containsSeq k (lowerText response_text)) &&
       !(sources1.any fun s => s.type == "encyclopedia".data) then
      sources1 ++ [wikipediaSource]
    else sources1
  sources2

/-! Spec-side decomposition of the extractor, following the wording of the
specification (§4.1 / claim C3): URL-derived sources in first-seen order,
then the synthetic academic entry, then the synthetic encyclopedia entry,
with the stated suppression conditions. -/

/-- The URL-derived sources, in first-seen order. -/
def urlSources (text : List Char) : List Source :=
  (reFindAll text).map classifyURL

/-- The lowercased text contains one of `arxiv`, `paper`, `research`, `study`. -/
def academicKeywordHit (text : List Char) : Bool :=
  ["arxiv".data, "paper".data, "research".data, "study".data].any
    fun k => containsSeq k (lowerText text)

/-- The lowercased text contains `wikipedia` or `wiki`. -/
def wikiKeywordHit (text : List Char) : Bool :=
  ["wikipedia".data, "wiki".data].any
    fun k => containsSeq k (lowerText text)

/-- Some source in the list carries the given `type` string. -/
def hasType (t : List Char) (ss : List Source) : Bool :=
  ss.any fun s => s.type == t

/-- The synthetic academic append: keyword hit and no URL-derived academic
source. -/
def syntheticAcademic (text : List Char) : List Source :=
  if academicKeywordHit text && !(hasType "academic".data (urlSources text)) then
    [arxivRepoSource]
  else []

/-- The synthetic encyclopedia append: keyword hit and no earlier source
(URL-derived or the just-appended academic entry) of type encyclopedia. -/
def syntheticEncyclopedia (text : List Char) : List Source :=
  if wikiKeywordHit text &&
     !(hasType "encyclopedia".data (urlSources text ++ syntheticAcademic text)) then
    [wikipediaSource]
  else []

/-- The extractor's output as the specification describes it. -/
def extractSourcesSpec (text : List Char) : List Source :=
  urlSources text ++ syntheticAcademic text ++ syntheticEncyclopedia text

/-! The conversation-store model: the Streamlit script of `src/main.py`
re-runs top to bottom on every interaction; we model the store transitions
its widget handlers perform.  The agent handle is `Option Unit` — the code
only ever tests it for `None`-ness. -/

/-- The initial assistant greeting seeded into `st.session_state.messages`
(`src/main.py` lines 188-195). -/
def initialGreeting : Message :=
  ⟨"assistant".data,
   ("Hello! I\x27m your Syam\x27s Search Assistant. I can help you search " ++
    "the web, find academic papers, and browse Wikipedia. What would you " ++
    "like to explore today?").data,
   []⟩

/-- The greeting installed by the Clear Chat button
(`src/main.py` lines 240-248). -/
def clearedGreeting : Message :=
  ⟨"assistant".data,
   "Chat cleared! How can I assist you with your research today?".data,
   []⟩

/-- The Clear Chat handler replaces the whole store, whatever it held. -/
def clearStore (_ms : List Message) : List Message :=
  [clearedGreeting]

/-- A user message as appended by the chat input and the quick-action
buttons (`{"role": "user", "content": ...}`, no `"sources"` key). -/
def mkUserMessage (content : List Char) : Message :=
  ⟨"user".data, content, []⟩

/-- The error text shown by the chat-input handler when the agent handle is
null (`src/main.py` line 254). -/
def notInitializedError : List Char :=
  "Research assistant is not properly initialized. Please check your API key.".data

/-- The canned query of the first quick-action button (`src/main.py` line 229). -/
def quickActionAIResearch : List Char :=
  "Find the latest research papers about artificial intelligence from arXiv".data

/-- The fixed apology appended when both the agent and the direct-model
fallback raise (`final_error`, `src/main.py` line 348). -/
def finalErrorText : List Char :=
  "I\x27m experiencing technical difficulties. Please try again in a moment.".data

/-- The user-interaction events of the page. -/
inductive UIEvent where
  | chatSubmit (prompt : List Char)
  | quickAction (query : List Char)
  | clearChat

/-- The store transition performed by each widget handler, together with the
error message surfaced, if any.  From `src/main.py`:
* chat input (lines 252-259): if the agent handle is null, show the
  not-initialized error and stop without appending; otherwise append the
  user message;
* quick-action buttons (lines 227-238): append the canned user message
  unconditionally — the handlers never consult the agent handle;
* Clear Chat (lines 240-248): replace the store with the cleared greeting. -/
def handleEvent (agent : Option Unit) (ms : List Message) :
    UIEvent → List Message × Option (List Char)
  | .chatSubmit prompt =>
    match agent with
    | none => (ms, some notInitializedError)
    | some _ => (ms ++ [mkUserMessage prompt], none)
  | .quickAction query => (ms ++ [mkUserMessage query], none)
  | .clearChat => (clearStore ms, none)

/-- Processing of the latest user message (`src/main.py` lines 261-354).
The two `Option (List Char)` arguments model the outcomes of the primary
tool-augmented agent invocation and of the direct-model fallback: `some out`
is a successful output text, `none` a raised exception.
* primary success: append the assistant message with
  `sources = extract_sources output`;
* primary failure, fallback success: append the fallback content with
  `sources = extract_sources fallback_content`;
* both fail: append the fixed apology with empty sources. -/
def processUserMessage (ms : List Message) :
    Option (List Char) → Option (List Char) → List Message
  | some output, _ =>
    ms ++ [⟨"assistant".data, output, extract_sources output⟩]
  | none, some fallbackContent =>
    ms ++ [⟨"assistant".data, fallbackContent, extract_sources fallbackContent⟩]
  | none, none =>
    ms ++ [⟨"assistant".data, finalErrorText, []⟩]

/-- One transition of the Conversation Store: a widget event (with any agent
handle and any event payload) or the processing of a pending user message
(with any invocation outcomes). -/
inductive Step : List Message → List Message → Prop
  | ui (agent : Option Unit) (e : UIEvent) (ms : List Message) :
      Step ms (handleEvent agent ms e).1
  | agentTurn (primary fallback : Option (List Char)) (ms : List Message) :
      Step ms (processUserMessage ms primary fallback)

/-- Store states reachable from initialization. -/
inductive Reachable : List Message → Prop
  | init : Reachable [initialGreeting]
  | step {ms ms' : List Message} : Reachable ms → Step ms ms' → Reachable ms'

/-- The per-message half of the spec's invariant: an assistant message's
sources are the extractor's output on its own content, or empty. -/
def assistantSourcesOK (m : Message) : Prop :=
  m.role = "assistant".data →
    (m.sources = extract_sources m.content ∨ m.sources = [])

/-- The Conversation Store invariant of §3 of the spec. -/
def storeInvariant (ms : List Message) : Prop :=
  ms ≠ [] ∧ ∀ m ∈ ms, assistantSourcesOK m

/-! Helper lemmas. -/

/-- Shared shape of the two sequential conditional appends in
`extract_sources`, stated over an arbitrary base list and predicates. -/
lemma twoConditionalAppends (U : List Source) (kA kW : Bool)
    (p q : Source → Bool) (a w : Source) :
    (let s1 := if kA && !(U.any p) then U ++ [a] else U
     if kW && !(s1.any q) then s1 ++ [w] else s1) =
    U ++ (if kA && !(U.any p) then [a] else []) ++
      (if kW && !((U ++ (if kA && !(U.any p) then [a] else [])).any q) then [w]
       else []) := by
  by_cases h1 : (kA && !(U.any p)) = true
  · simp only [if_pos h1]
    split <;> simp
  · simp only [if_neg h1, List.append_nil]
    split <;> simp

/-- The extractor computes exactly its spec-side decomposition. -/
lemma extract_sources_eq_spec (t : List Char) :
    extract_sources t = extractSourcesSpec t := by
  simp only [extractSourcesSpec, syntheticEncyclopedia, syntheticAcademic,
    urlSources, academicKeywordHit, wikiKeywordHit, hasType]
  exact twoConditionalAppends _ _ _ _ _ _ _

/-- A text that starts with `a ++ b` starts with `a`. -/
lemma beginsWithSeq_of_append (a b l : List Char)
    (h : beginsWithSeq (a ++ b) l = true) : beginsWithSeq a l = true := by
  induction a generalizing l with
  | nil => simp [beginsWithSeq]
  | cons x xs ih =>
    cases l with
    | nil => simp [beginsWithSeq] at h
    | cons y ys =>
      simp only [List.cons_append, beginsWithSeq, Bool.and_eq_true] at h ⊢
      exact ⟨h.1, ih ys h.2⟩

/-- A text containing `a ++ b` contains `a`. -/
lemma containsSeq_of_append (a b l : List Char)
    (h : containsSeq (a ++ b) l = true) : containsSeq a l = true := by
  induction l with
  | nil =>
    simp only [containsSeq] at h ⊢
    exact beginsWithSeq_of_append a b [] h
  | cons c cs ih =>
    simp only [containsSeq, Bool.or_eq_true] at h ⊢
    rcases h with h | h
    · exact Or.inl (beginsWithSeq_of_append a b _ h)
    · exact Or.inr (ih h)

/-- A text containing `wikipedia` contains `wiki`. -/
lemma containsSeq_wiki_of_wikipedia (l : List Char)
    (h : containsSeq "wikipedia".data l = true) :
    containsSeq "wiki".data l = true := by
  have e : "wikipedia".data = "wiki".data ++ "pedia".data := rfl
  rw [e] at h
  exact containsSeq_of_append _ _ _ h

/-- Every match produced by `mkMatch` starts with the four characters
`http`. -/
lemma mkMatch_begins_http {b : Bool} {rest u r : List Char}
    (h : mkMatch b rest = some (u, r)) :
    ∃ tail, u = 'h' :: 't' :: 't' :: 'p' :: tail := by
  unfold mkMatch at h
  simp only at h
  split at h
  · exact absurd h (by simp)
  · cases b <;> simp only [if_true, if_false, Bool.false_eq_true] at h <;>
      injection h with h' <;> cases h' <;> exact ⟨_, rfl⟩

/-- Every match produced by `matchURLAt` starts with `http`. -/
lemma matchURLAt_begins_http {cs u r : List Char}
    (h : matchURLAt cs = some (u, r)) :
    ∃ tail, u = 'h' :: 't' :: 't' :: 'p' :: tail := by
  unfold matchURLAt at h
  split at h
  · exact mkMatch_begins_http h
  · exact mkMatch_begins_http h
  · exact absurd h (by simp)

/-- Every URL the scanner returns starts with `http`. -/
lemma reFindAllAux_mem_http :
    ∀ (n : Nat) (cs u : List Char), u ∈ reFindAllAux n cs →
      ∃ tail, u = 'h' :: 't' :: 't' :: 'p' :: tail := by
  intro n
  induction n with
  | zero => intro cs u hu; simp [reFindAllAux] at hu
  | succ n ih =>
    intro cs u hu
    cases cs with
    | nil => simp [reFindAllAux] at hu
    | cons c cs =>
      rw [reFindAllAux] at hu
      cases h : matchURLAt (c :: cs) with
      | none => rw [h] at hu; exact ih cs u hu
      | some pr =>
        obtain ⟨url, rest⟩ := pr
        rw [h] at hu
        rcases List.mem_cons.mp hu with rfl | hu
        · exact matchURLAt_begins_http h
        · exact ih rest u hu

/-- Every URL `reFindAll` returns starts with `http`. -/
lemma reFindAll_mem_http {text u : List Char} (hu : u ∈ reFindAll text) :
    ∃ tail, u = 'h' :: 't' :: 't' :: 'p' :: tail :=
  reFindAllAux_mem_http text.length text u hu

/-- Membership in a conditional singleton pins down the element. -/
lemma mem_ite_singleton {α : Type} {c : Prop} [Decidable c] {x y : α}
    (h : y ∈ (if c then [x] else ([] : List α))) : y = x := by
  split at h
  · exact List.mem_singleton.mp h
  · exact absurd h (List.not_mem_nil y)

/-- `classifyURL` keeps the matched URL in the `url` field. -/
lemma classifyURL_url (u : List Char) : (classifyURL u).url = u := by
  unfold classifyURL
  split
  · rfl
  split
  · rfl
  split
  · rfl
  · rfl

/-- `classifyURL` only ever produces the four fixed titles. -/
lemma classifyURL_title (u : List Char) :
    (classifyURL u).title ∈
      ["arXiv Academic Paper".data, "Wikipedia Article".data,
       "Research Paper".data, "Web Source".data] := by
  unfold classifyURL
  split
  · simp
  split
  · simp
  split
  · simp
  · simp

/-- `classifyURL` only ever produces the four fixed type strings. -/
lemma classifyURL_type (u : List Char) :
    (classifyURL u).type ∈
      ["academic".data, "encyclopedia".data, "research".data, "web".data] := by
  unfold classifyURL
  split
  · simp
  split
  · simp
  split
  · simp
  · simp

/-- No URL-derived source equals the synthetic Wikipedia entry: the titles
already differ. -/
lemma classifyURL_ne_wikipediaSource (u : List Char) :
    classifyURL u ≠ wikipediaSource := by
  intro h
  have ht := classifyURL_title u
  rw [h] at ht
  exact absurd ht (by decide)

/-- A URL containing `wikipedia.org` but not `arxiv.org` is classified as an
encyclopedia source. -/
lemma classifyURL_encyclopedia {u : List Char}
    (hw : containsSeq "wikipedia.org".data u = true)
    (ha : containsSeq "arxiv.org".data u = false) :
    classifyURL u = ⟨"Wikipedia Article".data, u, "encyclopedia".data⟩ := by
  unfold classifyURL
  rw [if_neg (by simp [ha]), if_pos hw]

/-- Classified URL matches land in the extractor's output. -/
lemma classify_mem_extract_sources {text u : List Char}
    (hu : u ∈ reFindAll text) :
    classifyURL u ∈ extract_sources text := by
  rw [extract_sources_eq_spec]
  unfold extractSourcesSpec
  exact List.mem_append_left _
    (List.mem_append_left _ (List.mem_map_of_mem _ hu))

/-- `beginsWithSeq` on the four-character needle `http`. -/
lemma beginsWithSeq_http_cons (tail : List Char) :
    beginsWithSeq "http".data ('h' :: 't' :: 't' :: 'p' :: tail) = true := by
  simp [beginsWithSeq]

/-- Appending a message whose own invariant holds preserves the store
invariant. -/
lemma storeInvariant_append {ms : List Message} {m : Message}
    (h : storeInvariant ms) (hm : assistantSourcesOK m) :
    storeInvariant (ms ++ [m]) := by
  refine ⟨by simp, ?_⟩
  intro x hx
  rcases List.mem_append.mp hx with hx | hx
  · exact h.2 x hx
  · rw [List.mem_singleton] at hx
    subst hx
    exact hm

/-- User messages satisfy the per-message invariant vacuously. -/
lemma userMessage_ok (content : List Char) :
    assistantSourcesOK (mkUserMessage content) := by
  intro h
  have hru : ("user".data : List Char) = "assistant".data := h
  exact absurd hru (by decide)

/-- The cleared store satisfies the invariant. -/
lemma clearStore_invariant (ms : List Message) :
    storeInvariant (clearStore ms) := by
  refine ⟨by simp [clearStore], ?_⟩
  intro m hm
  rw [clearStore, List.mem_singleton] at hm
  subst hm
  intro _
  exact Or.inr rfl

/-! Claim theorems. -/

/-- C1 (counterexample to the claim as stated): the text `research wiki`
matches no URL and its lowercase contains `research`, yet `extract_sources`
returns two sources — the synthetic Wikipedia entry is appended as well. -/
theorem claim1_counterexample :
    reFindAll "research wiki".data = [] ∧
    containsSeq "research".data (lowerText "research wiki".data) = true ∧
    extract_sources "research wiki".data = [arxivRepoSource, wikipediaSource] :=
  ⟨by decide, by decide, by decide⟩

/-- C1 (amended): for a text with no URL match whose lowercase contains
`research` and does not contain `wiki` (which also rules out `wikipedia`),
the extractor returns exactly the synthetic arXiv Repository source. -/
theorem claim1_amended (text : List Char)
    (hno : reFindAll text = [])
    (hres : containsSeq "research".data (lowerText text) = true)
    (hwiki : containsSeq "wiki".data (lowerText text) = false) :
    extract_sources text = [arxivRepoSource] := by
  have hwp : containsSeq "wikipedia".data (lowerText text) = false := by
    cases h : containsSeq "wikipedia".data (lowerText text)
    · rfl
    · rw [containsSeq_wiki_of_wikipedia _ h] at hwiki
      exact absurd hwiki (by simp)
  rw [extract_sources_eq_spec]
  simp [extractSourcesSpec, urlSources, syntheticAcademic, syntheticEncyclopedia,
    academicKeywordHit, wikiKeywordHit, hasType, hno, hres, hwiki, hwp]

/-- C1 witness: a concrete no-URL text containing `research`. -/
theorem claim1_witness :
    extract_sources "research stuff".data = [arxivRepoSource] :=
  claim1_amended "research stuff".data (by decide) (by decide) (by decide)

/-- C2 (counterexample to the claim as stated): the text
`https://arxiv.org/abs/12345` contains the substring
`https://arxiv.org/abs/1234`, but the greedy URL pattern matches the longer
URL, so no returned source carries the exact shorter URL. -/
theorem claim2_counterexample :
    containsSeq "https://arxiv.org/abs/1234".data
      "https://arxiv.org/abs/12345".data = true ∧
    extract_sources "https://arxiv.org/abs/12345".data =
      [⟨"arXiv Academic Paper".data, "https://arxiv.org/abs/12345".data,
        "academic".data⟩] ∧
    (⟨"arXiv Academic Paper".data, "https://arxiv.org/abs/1234".data,
      "academic".data⟩ : Source) ∉
      extract_sources "https://arxiv.org/abs/12345".data :=
  ⟨by decide, by decide, by decide⟩

/-- C2 (amended): whenever the URL scan yields the match
`https://arxiv.org/abs/1234` itself, the extractor returns an academic
source with exactly that URL and the title `arXiv Academic Paper`. -/
theorem claim2_amended (text : List Char)
    (h : "https://arxiv.org/abs/1234".data ∈ reFindAll text) :
    (⟨"arXiv Academic Paper".data, "https://arxiv.org/abs/1234".data,
      "academic".data⟩ : Source) ∈ extract_sources text := by
  have hm := classify_mem_extract_sources h
  have hc : classifyURL "https://arxiv.org/abs/1234".data =
      ⟨"arXiv Academic Paper".data, "https://arxiv.org/abs/1234".data,
       "academic".data⟩ := by decide
  rwa [hc] at hm

/-- C2 witness: a concrete text whose scan yields exactly that match. -/
theorem claim2_witness :
    (⟨"arXiv Academic Paper".data, "https://arxiv.org/abs/1234".data,
      "academic".data⟩ : Source) ∈
      extract_sources "see https://arxiv.org/abs/1234 now".data :=
  claim2_amended "see https://arxiv.org/abs/1234 now".data (by decide)

/-- C3: the extractor's output is the URL-derived sources in first-seen
order, then the synthetic academic entry exactly when an academic keyword
occurs and no URL-derived source is academic, then the synthetic
encyclopedia entry exactly when a wiki keyword occurs and no earlier source
is of type encyclopedia. -/
theorem claim3_output_order (text : List Char) :
    extract_sources text =
      urlSources text ++ syntheticAcademic text ++ syntheticEncyclopedia text :=
  extract_sources_eq_spec text

/-- C4: URL classification by substring containment with the precedence
arxiv.org, then wikipedia.org, then doi.org, then the web default, with the
fixed titles per category. -/
theorem claim4_classification (u : List Char) :
    (containsSeq "arxiv.org".data u = true →
      classifyURL u = ⟨"arXiv Academic Paper".data, u, "academic".data⟩) ∧
    (containsSeq "arxiv.org".data u = false →
      containsSeq "wikipedia.org".data u = true →
      classifyURL u = ⟨"Wikipedia Article".data, u, "encyclopedia".data⟩) ∧
    (containsSeq "arxiv.org".data u = false →
      containsSeq "wikipedia.org".data u = false →
      containsSeq "doi.org".data u = true →
      classifyURL u = ⟨"Research Paper".data, u, "research".data⟩) ∧
    (containsSeq "arxiv.org".data u = false →
      containsSeq "wikipedia.org".data u = false →
      containsSeq "doi.org".data u = false →
      classifyURL u = ⟨"Web Source".data, u, "web".data⟩) := by
  refine ⟨?_, ?_, ?_, ?_⟩
  · intro h1
    unfold classifyURL
    rw [if_pos h1]
  · intro h1 h2
    unfold classifyURL
    rw [if_neg (by simp [h1]), if_pos h2]
  · intro h1 h2 h3
    unfold classifyURL
    rw [if_neg (by simp [h1]), if_neg (by simp [h2]), if_pos h3]
  · intro h1 h2 h3
    unfold classifyURL
    rw [if_neg (by simp [h1]), if_neg (by simp [h2]), if_neg (by simp [h3])]

/-- C4 witness: one concrete URL per category. -/
theorem claim4_witness :
    classifyURL "https://arxiv.org/abs/1".data =
      ⟨"arXiv Academic Paper".data, "https://arxiv.org/abs/1".data,
       "academic".data⟩ ∧
    classifyURL "https://en.wikipedia.org/wiki/AI".data =
      ⟨"Wikipedia Article".data, "https://en.wikipedia.org/wiki/AI".data,
       "encyclopedia".data⟩ ∧
    classifyURL "https://doi.org/10.1".data =
      ⟨"Research Paper".data, "https://doi.org/10.1".data, "research".data⟩ ∧
    classifyURL "https://example.com".data =
      ⟨"Web Source".data, "https://example.com".data, "web".data⟩ :=
  ⟨(claim4_classification _).1 (by decide),
   (claim4_classification _).2.1 (by decide) (by decide),
   (claim4_classification _).2.2.1 (by decide) (by decide) (by decide),
   (claim4_classification _).2.2.2 (by decide) (by decide) (by decide)⟩

/-- C5 (counterexample to the claim as stated): a wikipedia.org URL that
also contains `arxiv.org` is classified academic, so the synthetic
encyclopedia entry is appended even though the text has a wikipedia.org URL
match and contains `wiki`. -/
theorem claim5_counterexample :
    ("https://en.wikipedia.org/wiki/arxiv.org".data ∈
      reFindAll "see https://en.wikipedia.org/wiki/arxiv.org page".data) ∧
    containsSeq "wikipedia.org".data
      "https://en.wikipedia.org/wiki/arxiv.org".data = true ∧
    containsSeq "wiki".data
      (lowerText "see https://en.wikipedia.org/wiki/arxiv.org page".data) = true ∧
    wikipediaSource ∈
      extract_sources "see https://en.wikipedia.org/wiki/arxiv.org page".data :=
  ⟨by decide, by decide, by decide, by decide⟩

/-- C5 (amended): when some URL match contains `wikipedia.org` and not
`arxiv.org` (so its source is classified encyclopedia), the synthetic
Wikipedia entry never appears in the output. -/
theorem claim5_amended (text u : List Char)
    (hu : u ∈ reFindAll text)
    (hw : containsSeq "wikipedia.org".data u = true)
    (ha : containsSeq "arxiv.org".data u = false)
    (_hkw : containsSeq "wiki".data (lowerText text) = true) :
    wikipediaSource ∉ extract_sources text := by
  rw [extract_sources_eq_spec]
  unfold extractSourcesSpec
  intro hmem
  rcases List.mem_append.mp hmem with hm | hW
  · rcases List.mem_append.mp hm with hU | hA
    · obtain ⟨v, hv, hcl⟩ := List.mem_map.mp hU
      exact classifyURL_ne_wikipediaSource v hcl
    · unfold syntheticAcademic at hA
      have := mem_ite_singleton hA
      exact absurd this (by decide)
  · have henc : hasType "encyclopedia".data
        (urlSources text ++ syntheticAcademic text) = true := by
      unfold hasType
      refine List.any_eq_true.mpr ⟨classifyURL u, ?_, ?_⟩
      · exact List.mem_append_left _ (List.mem_map_of_mem _ hu)
      · rw [classifyURL_encyclopedia hw ha]
        simp
    simp [syntheticEncyclopedia, henc] at hW

/-- C5 witness: a clean wikipedia.org URL plus the `wiki` keyword. -/
theorem claim5_witness :
    wikipediaSource ∉
      extract_sources "see https://en.wikipedia.org/wiki/AI now".data :=
  claim5_amended "see https://en.wikipedia.org/wiki/AI now".data
    "https://en.wikipedia.org/wiki/AI".data
    (by decide) (by decide) (by decide) (by decide)

/-- C6: every reachable Conversation Store state is non-empty, and every
assistant message's sources are the extractor's output on its own content,
or empty. -/
theorem claim6_store_invariant {ms : List Message} (h : Reachable ms) :
    storeInvariant ms := by
  induction h with
  | init =>
    refine ⟨by simp, ?_⟩
    intro m hm
    rw [List.mem_singleton] at hm
    subst hm
    intro _
    exact Or.inr rfl
  | step hr hs ih =>
    cases hs with
    | ui agent e ms =>
      cases e with
      | chatSubmit prompt =>
        cases agent with
        | none => exact ih
        | some u =>
          exact storeInvariant_append ih (userMessage_ok prompt)
      | quickAction query =>
        exact storeInvariant_append ih (userMessage_ok query)
      | clearChat => exact clearStore_invariant ms
    | agentTurn primary fallback ms =>
      cases primary with
      | some output =>
        exact storeInvariant_append ih (fun _ => Or.inl rfl)
      | none =>
        cases fallback with
        | some fallbackContent =>
          exact storeInvariant_append ih (fun _ => Or.inl rfl)
        | none =>
          exact storeInvariant_append ih (fun _ => Or.inr rfl)

/-- C6 witness: the freshly initialized store satisfies the invariant. -/
theorem claim6_witness : storeInvariant [initialGreeting] :=
  claim6_store_invariant Reachable.init

/-- C7 (counterexample to the claim as stated): with a null agent handle, a
quick-action button click still appends the canned user message and surfaces
no error at all. -/
theorem claim7_counterexample :
    (handleEvent none [initialGreeting]
        (.quickAction quickActionAIResearch)).1 =
      [initialGreeting, mkUserMessage quickActionAIResearch] ∧
    (handleEvent none [initialGreeting]
        (.quickAction quickActionAIResearch)).2 = none ∧
    (handleEvent none [initialGreeting]
        (.quickAction quickActionAIResearch)).1.length = 2 :=
  ⟨rfl, rfl, rfl⟩

/-- C7 (amended): with a null agent handle, a chat-input submission is
rejected with the not-initialized error and appends nothing, while a
quick-action click appends the user message with no rejection. -/
theorem claim7_amended (prompt query : List Char) (ms : List Message) :
    handleEvent none ms (.chatSubmit prompt) = (ms, some notInitializedError) ∧
    handleEvent none ms (.quickAction query) =
      (ms ++ [mkUserMessage query], none) :=
  ⟨rfl, rfl⟩

/-- C8: when both the agent invocation and the direct-model fallback raise,
the appended assistant message carries the fixed apology text and empty
sources, and the store grows by exactly that one message. -/
theorem claim8_double_fallback (ms : List Message) :
    processUserMessage ms none none =
      ms ++ [⟨"assistant".data, finalErrorText, []⟩] ∧
    (processUserMessage ms none none).length = ms.length + 1 :=
  ⟨rfl, by simp [processUserMessage]⟩

/-- C9: after Clear, the store has exactly one message, an assistant message
with empty sources, whatever it held before. -/
theorem claim9_clear (ms : List Message) :
    (clearStore ms).length = 1 ∧
    ∀ m ∈ clearStore ms, m.role = "assistant".data ∧ m.sources = [] := by
  refine ⟨rfl, ?_⟩
  intro m hm
  rw [clearStore, List.mem_singleton] at hm
  subst hm
  exact ⟨rfl, rfl⟩

/-- C9 witness: clearing a concrete store. -/
theorem claim9_witness :
    (clearStore [initialGreeting]).length = 1 ∧
    (clearedGreeting.role = "assistant".data ∧ clearedGreeting.sources = []) :=
  ⟨(claim9_clear [initialGreeting]).1,
   (claim9_clear [initialGreeting]).2 clearedGreeting (by decide)⟩

/-- C10: every source the extractor returns has a non-empty URL beginning
with `http` and one of the four type strings. -/
theorem claim10_source_wellformed (text : List Char) (s : Source)
    (hs : s ∈ extract_sources text) :
    s.url ≠ [] ∧ beginsWithSeq "http".data s.url = true ∧
    s.type ∈ ["academic".data, "encyclopedia".data, "research".data,
              "web".data] := by
  rw [extract_sources_eq_spec] at hs
  unfold extractSourcesSpec at hs
  rcases List.mem_append.mp hs with hm | hW
  · rcases List.mem_append.mp hm with hU | hA
    · obtain ⟨u, hu, rfl⟩ := List.mem_map.mp hU
      obtain ⟨tail, rfl⟩ := reFindAll_mem_http hu
      refine ⟨?_, ?_, classifyURL_type _⟩
      · rw [classifyURL_url]
        simp
      · rw [classifyURL_url]
        exact beginsWithSeq_http_cons tail
    · unfold syntheticAcademic at hA
      rw [mem_ite_singleton hA]
      exact ⟨by decide, by decide, by decide⟩
  · unfold syntheticEncyclopedia at hW
    rw [mem_ite_singleton hW]
    exact ⟨by decide, by decide, by decide⟩

/-- C10 witness: a concrete plain web URL. -/
theorem claim10_witness :
    (⟨"Web Source".data, "https://example.com/page".data, "web".data⟩ :
        Source).url ≠ [] ∧
    beginsWithSeq "http".data
      (⟨"Web Source".data, "https://example.com/page".data, "web".data⟩ :
        Source).url = true ∧
    (⟨"Web Source".data, "https://example.com/page".data, "web".data⟩ :
        Source).type ∈
      ["academic".data, "encyclopedia".data, "research".data, "web".data] :=
  claim10_source_wellformed "https://example.com/page".data _ (by decide)
